import Mathlib

/-
Verification development for the i915-perf-kernelgen metric-set resolution
pipeline (scripts/i915-perf-kernelgen.py).

The script is a Python 2 batch program.  We shallowly embed the parts of it
that the claims are about:

  * the `underscore` identifier-casing transform (regex substitutions are
    embedded as explicit left-to-right scanning functions with Python `re`
    semantics: leftmost match, greedy character classes, resume after the
    whole match);
  * the GUID registry loading loop (a Python dict is embedded as an
    association list with last-binding-wins lookup);
  * the per-`set`-element selection loop (chipset assert, hard-coded
    default TestOa/RenderBasic filter, whitelist, blacklist, empty-config
    skip, registry lookup skip, metric-set record construction);
  * the per-set config bucketing / cardinality checks / emission step;
  * the top-level nesting of the per-set emission loop inside the loop over
    input documents.

XML elements are embedded as records of the attributes and children the
script reads.  The externally supplied hash functions
(`oa_registry.Registry.chipset_derive_hash` and
`oa_registry.Registry.hw_config_hash` from pylibs, not part of this
repository slice) are opaque deterministic functions and are taken as
parameters throughout.  Fatal `assert`s are embedded as `Except.error`;
`continue` without output as a silent skip; `continue` after `print_err`
as a skip carrying the warning string.
-/

/-- ASCII uppercase test, Python 2 `[A-Z]` on byte strings. -/
def isUpperAZ (c : Char) : Bool := 'A' ≤ c && c ≤ 'Z'

/-- ASCII lowercase test, Python 2 `[a-z]` on byte strings. -/
def isLowerAZ (c : Char) : Bool := 'a' ≤ c && c ≤ 'z'

/-- ASCII digit test, Python 2 `[0-9]`. -/
def isDigit09 (c : Char) : Bool := '0' ≤ c && c ≤ '9'

/-- Python 2 `str.upper()` on one ASCII character. -/
def upperChar (c : Char) : Char :=
  if 'a' ≤ c ∧ c ≤ 'z' then Char.ofNat (c.toNat - 32) else c

/-- Python 2 `str.lower()` on one ASCII character. -/
def lowerChar (c : Char) : Char :=
  if 'A' ≤ c ∧ c ≤ 'Z' then Char.ofNat (c.toNat + 32) else c

/-- Python 2 `str.upper()`. -/
def toUpperStr (s : String) : String := String.mk (s.data.map upperChar)

/-- Python 2 `str.lower()`. -/
def toLowerStr (s : String) : String := String.mk (s.data.map lowerChar)

/-- `re.sub('MHz', 'Mhz', name)`: replace every non-overlapping occurrence
of the literal substring `MHz`, scanning left to right. -/
def mhzFix : List Char → List Char
  | 'M' :: 'H' :: 'z' :: rest => 'M' :: 'h' :: 'z' :: mhzFix rest
  | c :: rest => c :: mhzFix rest
  | [] => []

/-- Split a maximal (greedy) run of ASCII lowercase letters off the front,
returning the run and the remainder; models the greedy `[a-z]+` in
`re.sub('(.)([A-Z][a-z]+)', ...)`. -/
def lowerRun : List Char → List Char × List Char
  | [] => ([], [])
  | c :: rest =>
    if isLowerAZ c then
      let p := lowerRun rest
      (c :: p.1, p.2)
    else ([], c :: rest)

/-- Whether the head of the list is an ASCII lowercase letter (the `+` of
`[a-z]+` demands at least one). -/
def headIsLower : List Char → Bool
  | c :: _ => isLowerAZ c
  | [] => false

/-- One fuel-indexed step of `re.sub('(.)([A-Z][a-z]+)', r'\1_\2', s)`:
scan left to right; a match is any character (except newline) followed by
an ASCII uppercase letter followed by at least one ASCII lowercase letter;
on a match emit group1 ++ `_` ++ group2 (group2 greedy) and resume after
the match; otherwise emit one character and advance.  The fuel is an upper
bound on the number of scanning steps; each step strictly shrinks the
input, so `length` fuel is always enough. -/
def sub1Fuel : Nat → List Char → List Char
  | 0, cs => cs
  | _ + 1, [] => []
  | _ + 1, [c] => [c]
  | fuel + 1, c1 :: c2 :: rest =>
    if c1 != '\n' && isUpperAZ c2 && headIsLower rest then
      let p := lowerRun rest
      c1 :: '_' :: c2 :: (p.1 ++ sub1Fuel fuel p.2)
    else
      c1 :: sub1Fuel fuel (c2 :: rest)

/-- `re.sub('(.)([A-Z][a-z]+)', r'\1_\2', s)`. -/
def sub1 (cs : List Char) : List Char := sub1Fuel cs.length cs

/-- `re.sub('([a-z0-9])([A-Z])', r'\1_\2', s)`: a match is an ASCII
lowercase letter or digit followed by an ASCII uppercase letter; emit
group1 ++ `_` ++ group2 and resume after the uppercase letter. -/
def sub2 : List Char → List Char
  | [] => []
  | [c] => [c]
  | c1 :: c2 :: rest =>
    if (isLowerAZ c1 || isDigit09 c1) && isUpperAZ c2 then
      c1 :: '_' :: c2 :: sub2 rest
    else
      c1 :: sub2 (c2 :: rest)

/-- The script's `underscore` function:
`s = re.sub('MHz', 'Mhz', name)`;
`s = re.sub('(.)([A-Z][a-z]+)', r'\1_\2', s)`;
`return re.sub('([a-z0-9])([A-Z])', r'\1_\2', s).lower()`. -/
def underscore (name : String) : String :=
  String.mk ((sub2 (sub1 (mhzFix name.data))).map lowerChar)

/-- Python 2 whitespace for `str.split()` with no argument. -/
def isWs (c : Char) : Bool :=
  c == ' ' || c == '\t' || c == '\n' || c == '\r' || c == '\x0b' || c == '\x0c'

/-- Worker for `pysplit`: splits on runs of whitespace, dropping empty
fields, accumulating the current word reversed. -/
def wordsAux : List Char → List Char → List (List Char)
  | [], acc => if acc.isEmpty then [] else [acc.reverse]
  | c :: rest, acc =>
    if isWs c then
      if acc.isEmpty then wordsAux rest [] else acc.reverse :: wordsAux rest []
    else wordsAux rest (c :: acc)

/-- Python 2 `str.split()` with no argument: split on runs of whitespace,
no empty fields. -/
def pysplit (s : String) : List String := (wordsAux s.data []).map String.mk

/-- Python truthiness of an optional string argument (argparse yields
`None` when an option is absent; an empty string is also falsy). -/
def strTruthy : Option String → Bool
  | none => false
  | some s => s != ""

/-- A `register` child element: the attributes the script reads. -/
structure RegisterElem where
  rtype : Option String
  address : String
  value : String
deriving DecidableEq

/-- A `register_config` child element of a `set` element: its `type`
attribute (absent attributes read as `None`) and its `register` children. -/
structure ConfigElem where
  ctype : Option String
  registers : List RegisterElem
deriving DecidableEq

/-- A `set` element of a metric-description document: the attributes and
children the script reads. -/
structure SetElement where
  chipset : String
  symbol_name : String
  name : String
  register_configs : List ConfigElem
deriving DecidableEq

/-- A `guid` element of the registry document: the attributes the script
reads (each may be absent). -/
structure GuidElement where
  chipset : Option String
  config_hash : Option String
  id : Option String
deriving DecidableEq

/-- The Python `guids` dict, embedded as an association list in insertion
order; lookup takes the LAST binding, matching dict assignment. -/
abbrev GuidsMap : Type := List (String × Option String)

/-- Dict assignment `guids[k] = v` (a later binding shadows earlier ones). -/
def dictInsert (m : GuidsMap) (k : String) (v : Option String) : GuidsMap :=
  m ++ [(k, v)]

/-- Dict lookup: `some v` when the key is bound (`k in guids` and
`guids[k]`), taking the latest binding; `none` when absent. -/
def dictLookup (m : GuidsMap) (k : String) : Option (Option String) :=
  (m.reverse.find? (fun p => p.1 == k)).map (·.2)

/-- The registry loading loop:
for each `guid` element of the registry document, if `config_hash` is in
its attributes, bind `chipset_derive_hash(chipset_attr, config_hash_attr)`
to its `id` attribute; elements without `config_hash` contribute nothing.
The derive-hash function `dh` is the opaque external
`oa_registry.Registry.chipset_derive_hash`. -/
def loadGuidsStep (dh : Option String → String → String) (m : GuidsMap) (g : GuidElement) :
    GuidsMap :=
  match g.config_hash with
  | some ch => dictInsert m (dh g.chipset ch) g.id
  | none => m

/-- The whole registry loading loop: fold `loadGuidsStep` over the `guid`
elements in document order, starting from the empty dict. -/
def loadGuids (dh : Option String → String → String) (els : List GuidElement) : GuidsMap :=
  els.foldl (loadGuidsStep dh) ([] : List (String × Option String))

/-- The command-line arguments the selection loop reads.  `no_whitelist`
is declared by argparse (`--no-whitelist`, help: bypass default metric set
whitelist) and is carried here for fidelity; the selection loop never
reads it. -/
structure Args where
  chipset : String
  whitelist : Option String
  no_whitelist : Bool
  blacklist : Option String
deriving DecidableEq

/-- The `metric_set` dict the selection loop appends to `sets`. -/
structure MetricSet where
  name : String
  set_element : SetElement
  chipset_lc : String
  perf_name_lc : String
  perf_name : String
  guid : Option String
  configs : List ConfigElem
deriving DecidableEq

/-- Outcome of the selection-loop body for one `set` element:
`fatal` for a failed `assert`, `skip` for a silent `continue`,
`skipWarn` for a `continue` after `print_err` (carrying the warning
string), `keep` for appending a `metric_set` record to `sets`. -/
inductive SelectStep where
  | fatal
  | skip
  | skipWarn (msg : String)
  | keep (ms : MetricSet)
deriving DecidableEq

/-- One iteration of `for set_element in xml.findall(".//set")`:
the chipset assert; the hard-coded default filter (`RenderBasic` when the
uppercased chipset is `HSW`, else `TestOa`); the whitelist filter when
`args.whitelist` is truthy; the blacklist filter (default empty); the
empty-`register_config` warning skip; the registry lookup with warning
skip on a miss; otherwise construction of the `metric_set` record.
`dh` is `oa_registry.Registry.chipset_derive_hash` and `hh` is
`oa_registry.Registry.hw_config_hash`, both opaque external functions. -/
def processSetElement (a : Args) (guids : GuidsMap)
    (dh : Option String → String → String) (hh : SetElement → String)
    (se : SetElement) : SelectStep :=
  let chipset := toUpperStr a.chipset
  if se.chipset ≠ chipset then .fatal
  else
    let set_name := se.symbol_name
    if (if chipset = "HSW" then set_name ≠ "RenderBasic" else set_name ≠ "TestOa") then .skip
    else if strTruthy a.whitelist = true ∧ set_name ∉ pysplit (a.whitelist.getD "") then .skip
    else
      let set_blacklist := if strTruthy a.blacklist then pysplit (a.blacklist.getD "") else []
      if set_name ∈ set_blacklist then .skip
      else
        let configs := se.register_configs
        if configs.length = 0 then
          .skipWarn ("WARNING: Missing register configuration for set \"" ++ se.name ++ "\" (SKIPPING)")
        else
          let hw_config_hash := hh se
          let hashing_key := dh (some (toLowerStr chipset)) hw_config_hash
          match dictLookup guids hashing_key with
          | none =>
            .skipWarn ("WARNING: No GUID found for metric set " ++ chipset ++ ", " ++ se.name
              ++ " (expected key = " ++ hashing_key ++ ") (SKIPPING)")
          | some g =>
            let perf_name_lc := underscore set_name
            let perf_name := toUpperStr perf_name_lc
            .keep { name := set_name, set_element := se,
                    chipset_lc := toLowerStr chipset,
                    perf_name_lc := perf_name_lc, perf_name := perf_name,
                    guid := g, configs := configs }

/-- The whole `for set_element in xml.findall(".//set")` loop over one
document: collects the appended `metric_set` records and the warnings in
order; a failed `assert` aborts the run. -/
def extractLoop (a : Args) (guids : GuidsMap)
    (dh : Option String → String → String) (hh : SetElement → String) :
    List SetElement → Except String (List MetricSet × List String)
  | [] => .ok ([], [])
  | se :: rest =>
    match processSetElement a guids dh hh se with
    | .fatal => .error "AssertionError: set chipset attribute mismatch"
    | .skip => extractLoop a guids dh hh rest
    | .skipWarn w => (extractLoop a guids dh hh rest).map (fun p => (p.1, w :: p.2))
    | .keep ms => (extractLoop a guids dh hh rest).map (fun p => (ms :: p.1, p.2))

/-- The three buckets the per-set loop partitions `configs` into. -/
structure Buckets where
  mux_configs : List ConfigElem
  b_counter_configs : List ConfigElem
  flex_configs : List ConfigElem
deriving DecidableEq

/-- The bucketing loop: for each `config` in order, append it to the
bucket named by its `type` attribute (`NOA`, `OA`, `FLEX`); any other
value, or an absent attribute, appends to no bucket. -/
def bucketStep (acc : Buckets) (cfg : ConfigElem) : Buckets :=
  if cfg.ctype = some "NOA" then { acc with mux_configs := acc.mux_configs ++ [cfg] }
  else if cfg.ctype = some "OA" then { acc with b_counter_configs := acc.b_counter_configs ++ [cfg] }
  else if cfg.ctype = some "FLEX" then { acc with flex_configs := acc.flex_configs ++ [cfg] }
  else acc

/-- The whole bucketing loop: fold `bucketStep` over the set's
`register_config` elements in document order, starting from three empty
buckets. -/
def bucket (configs : List ConfigElem) : Buckets :=
  configs.foldl bucketStep ⟨[], [], []⟩

/-- The synthesized `et.Element('register_config')` placeholder: no
attributes, no children. -/
def emptyRC : ConfigElem := { ctype := none, registers := [] }

/-- The per-set cardinality checks and config resolution:
if the OA bucket is empty append the empty placeholder, then assert it has
exactly one element; same for FLEX; assert the NOA bucket has exactly one
element; on success return the (OA, FLEX, NOA) blocks handed to the three
output functions, in the script's emission order. -/
def resolveConfigs (configs : List ConfigElem) :
    Except String (ConfigElem × ConfigElem × ConfigElem) :=
  let bk := bucket configs
  let bcs := if bk.b_counter_configs.length = 0 then bk.b_counter_configs ++ [emptyRC]
             else bk.b_counter_configs
  if bcs.length = 1 then
    let fcs := if bk.flex_configs.length = 0 then bk.flex_configs ++ [emptyRC]
               else bk.flex_configs
    if fcs.length = 1 then
      if bk.mux_configs.length = 1 then
        .ok (bcs.headD emptyRC, fcs.headD emptyRC, bk.mux_configs.headD emptyRC)
      else .error "AssertionError: len of mux_configs is not 1"
    else .error "AssertionError: len of flex_configs is not 1"
  else .error "AssertionError: len of b_counter_configs is not 1"

/-- One per-set emission: the set together with the resolved OA, FLEX and
NOA blocks passed to `output_b_counter_config`, `output_flex_config` and
`output_mux_config`. -/
structure Emission where
  ms : MetricSet
  b_counter_config : ConfigElem
  flex_config : ConfigElem
  mux_config : ConfigElem
deriving DecidableEq

/-- The `for metric_set in sets` loop body chained over the whole list:
resolving and emitting each accumulated set in order; a failed cardinality
assert aborts the run. -/
def emitAll : List MetricSet → Except String (List Emission)
  | [] => .ok []
  | ms :: rest =>
    match resolveConfigs ms.configs with
    | .error e => .error e
    | .ok t =>
      match emitAll rest with
      | .error e => .error e
      | .ok evs =>
        .ok ({ ms := ms, b_counter_config := t.1, flex_config := t.2.1, mux_config := t.2.2 } :: evs)

/-- The top level of the script: `for arg in args.xml:` parses one
document, runs the extraction loop appending to the (process-wide) `sets`
list, and then — still inside the document loop — runs the emission loop
over the ENTIRE accumulated `sets` list.  Returns the final `sets` list,
the warnings, and the flat emission stream. -/
def runDocs (a : Args) (guids : GuidsMap)
    (dh : Option String → String → String) (hh : SetElement → String) :
    List (List SetElement) → List MetricSet →
    Except String (List MetricSet × List String × List Emission)
  | [], sets => .ok (sets, [], [])
  | doc :: rest, sets =>
    match extractLoop a guids dh hh doc with
    | .error e => .error e
    | .ok p =>
      match emitAll (sets ++ p.1) with
      | .error e => .error e
      | .ok evs =>
        match runDocs a guids dh hh rest (sets ++ p.1) with
        | .error e => .error e
        | .ok q => .ok (q.1, p.2 ++ q.2.1, evs ++ q.2.2)

deriving instance DecidableEq for Except

/-- A concrete stand-in for the opaque external
`chipset_derive_hash(chipset, hash)`: any deterministic function serves. -/
def dhX (c : Option String) (h : String) : String := c.getD "" ++ ":" ++ h

/-- A concrete stand-in for the opaque external content hash
`hw_config_hash(set_element)`. -/
def hhX (se : SetElement) : String := se.symbol_name

/-- A concrete NOA register element (the end-to-end example of the spec). -/
def regNOA : RegisterElem := { rtype := some "NOA", address := "9840", value := "00000140" }

/-- A concrete NOA register-config block. -/
def cfgNOA : ConfigElem := { ctype := some "NOA", registers := [regNOA] }

/-- A candidate `set` element named `TestOa` for chipset `XYZ`. -/
def seTest : SetElement :=
  { chipset := "XYZ", symbol_name := "TestOa", name := "TestOa", register_configs := [cfgNOA] }

/-- A candidate `set` element named `RenderBasic` for chipset `XYZ`. -/
def seRB : SetElement :=
  { chipset := "XYZ", symbol_name := "RenderBasic", name := "RenderBasic", register_configs := [cfgNOA] }

/-- A candidate `set` element named `Foo` for chipset `XYZ`. -/
def seFoo : SetElement :=
  { chipset := "XYZ", symbol_name := "Foo", name := "Foo", register_configs := [cfgNOA] }

/-- A registry holding entries for all three concrete candidates under the
keys `dhX`/`hhX` compute for chipset `XYZ`. -/
def guidsX : GuidsMap :=
  [("xyz:TestOa", some "guid-1"), ("xyz:RenderBasic", some "guid-2"), ("xyz:Foo", some "guid-3")]

/-- Arguments: chipset `xyz`, no whitelist, no blacklist. -/
def argsX : Args :=
  { chipset := "xyz", whitelist := none, no_whitelist := false, blacklist := none }

/-- The `metric_set` record the selection loop builds for `seTest`. -/
def msT : MetricSet :=
  { name := "TestOa", set_element := seTest, chipset_lc := "xyz",
    perf_name_lc := "test_oa", perf_name := "TEST_OA",
    guid := some "guid-1", configs := [cfgNOA] }

/-- A concrete OA register-config block. -/
def cfgOA : ConfigElem := { ctype := some "OA", registers := [] }

/-- A concrete FLEX register-config block. -/
def cfgFLEX : ConfigElem := { ctype := some "FLEX", registers := [] }

/-- A register-config block with an unrecognized `type` attribute. -/
def cfgODD : ConfigElem := { ctype := some "PM", registers := [regNOA] }

/-- A candidate `set` element with no `register_config` children. -/
def seEmpty : SetElement :=
  { chipset := "XYZ", symbol_name := "TestOa", name := "TestOa", register_configs := [] }

/-- A candidate `set` element named `TestOa` for chipset `HSW`. -/
def seHswTest : SetElement :=
  { chipset := "HSW", symbol_name := "TestOa", name := "TestOa", register_configs := [cfgNOA] }

/-- Arguments: chipset `hsw`, no whitelist, no blacklist. -/
def argsHSW : Args :=
  { chipset := "hsw", whitelist := none, no_whitelist := false, blacklist := none }

/-- A registry element without a `config_hash` attribute. -/
def gSkip : GuidElement := { chipset := some "xyz", config_hash := none, id := some "id0" }

/-- A registry element binding the key for hash `AAA`. -/
def g1 : GuidElement := { chipset := some "xyz", config_hash := some "AAA", id := some "id1" }

/-- A second registry element binding the same key as `g1`. -/
def g2 : GuidElement := { chipset := some "xyz", config_hash := some "AAA", id := some "id2" }

/-- The emission record produced for `msT`. -/
def emT : Emission :=
  { ms := msT, b_counter_config := emptyRC, flex_config := emptyRC, mux_config := cfgNOA }

/-- The `sets` list the per-document extraction loop yields for one
document, read back off the `Except`; yields `[]` on an aborted run
(used only to state theorems about which document a set came from). -/
def extractedSets (a : Args) (guids : GuidsMap)
    (dh : Option String → String → String) (hh : SetElement → String)
    (doc : List SetElement) : List MetricSet :=
  match extractLoop a guids dh hh doc with
  | .ok p => p.1
  | .error _ => []

/-- Occurrences of a metric-set record in a list. -/
def countMS (ms : MetricSet) (l : List MetricSet) : Nat :=
  l.countP (fun x => decide (x = ms))

/-- Occurrences of a metric set among the emissions. -/
def countEm (ms : MetricSet) (evs : List Emission) : Nat :=
  evs.countP (fun e => decide (e.ms = ms))

theorem dictLookup_insert_self (m : GuidsMap) (k : String) (v : Option String) :
    dictLookup (dictInsert m k v) k = some v := by
  simp [dictLookup, dictInsert, List.reverse_append]

theorem dictLookup_insert_other (m : GuidsMap) (k k2 : String) (v : Option String)
    (h : k2 ≠ k) : dictLookup (dictInsert m k2 v) k = dictLookup m k := by
  simp [dictLookup, dictInsert, List.reverse_append, List.find?_cons, h]

theorem foldl_loadGuidsStep_preserve (dh : Option String → String → String) (k : String) :
    ∀ (ys : List GuidElement) (m : GuidsMap),
      (∀ g ∈ ys, ∀ ch2, g.config_hash = some ch2 → dh g.chipset ch2 ≠ k) →
      dictLookup (ys.foldl (loadGuidsStep dh) m) k = dictLookup m k := by
  intro ys
  induction ys with
  | nil => intro m _; rfl
  | cons g rest ih =>
    intro m h
    rw [List.foldl_cons, ih _ (fun g2 hg2 => h g2 (List.mem_cons_of_mem _ hg2))]
    unfold loadGuidsStep
    cases hch : g.config_hash with
    | none => rfl
    | some ch => exact dictLookup_insert_other _ _ _ _ (h g (List.mem_cons_self _ _) ch hch)

/-- C6: the Registry Loader skips `guid` elements lacking a `config_hash`
attribute (they contribute nothing to the mapping, without error), and
when two elements derive the same hash key the later element's `id`
overwrites the earlier one (last-wins, without error): the lookup of a key
returns the `id` of the last element deriving that key. -/
theorem registry_skip_and_last_wins :
    (∀ (dh : Option String → String → String) (xs ys : List GuidElement) (g : GuidElement),
       g.config_hash = none →
       loadGuids dh (xs ++ g :: ys) = loadGuids dh (xs ++ ys)) ∧
    (∀ (dh : Option String → String → String) (xs : List GuidElement) (e : GuidElement)
       (ch : String) (ys : List GuidElement),
       e.config_hash = some ch →
       (∀ g ∈ ys, ∀ ch2, g.config_hash = some ch2 → dh g.chipset ch2 ≠ dh e.chipset ch) →
       dictLookup (loadGuids dh (xs ++ e :: ys)) (dh e.chipset ch) = some e.id) := by
  constructor
  · intro dh xs ys g hg
    unfold loadGuids
    rw [List.foldl_append, List.foldl_append, List.foldl_cons]
    have : loadGuidsStep dh (xs.foldl (loadGuidsStep dh) []) g
        = xs.foldl (loadGuidsStep dh) [] := by
      unfold loadGuidsStep
      rw [hg]
    rw [this]
  · intro dh xs e ch ys he hys
    unfold loadGuids
    rw [List.foldl_append, List.foldl_cons]
    rw [foldl_loadGuidsStep_preserve dh _ ys _ hys]
    have : loadGuidsStep dh (xs.foldl (loadGuidsStep dh) []) e
        = dictInsert (xs.foldl (loadGuidsStep dh) []) (dh e.chipset ch) e.id := by
      unfold loadGuidsStep
      rw [he]
    rw [this]
    exact dictLookup_insert_self _ _ _

/-- Witness for C6 at concrete inputs: an element without `config_hash`
contributes nothing, and of two elements deriving the key for hash `AAA`
the later `id` wins. -/
theorem registry_skip_and_last_wins_witness :
    loadGuids dhX [gSkip, g1, g2] = loadGuids dhX [g1, g2] ∧
    dictLookup (loadGuids dhX [g1, g2]) (dhX g2.chipset "AAA") = some g2.id := by
  constructor
  · exact registry_skip_and_last_wins.1 dhX [] [g1, g2] gSkip rfl
  · exact registry_skip_and_last_wins.2 dhX [g1] g2 "AAA" []
      rfl (fun g hg => absurd hg (List.not_mem_nil g))

theorem keep_inv (a : Args) (guids : GuidsMap) (dh : Option String → String → String)
    (hh : SetElement → String) (se : SetElement) (ms : MetricSet)
    (h : processSetElement a guids dh hh se = .keep ms) :
    dictLookup guids (dh (some (toLowerStr (toUpperStr a.chipset))) (hh se)) = some ms.guid ∧
    ms.set_element = se ∧ ms.name = se.symbol_name ∧
    ms.perf_name_lc = underscore se.symbol_name ∧
    ms.perf_name = toUpperStr (underscore se.symbol_name) ∧
    ms.configs = se.register_configs := by
  simp only [processSetElement] at h
  repeat' split at h
  any_goals exact SelectStep.noConfusion h
  all_goals
    rename_i g heq
    cases h
    exact ⟨heq, rfl, rfl, rfl, rfl, rfl⟩

theorem extractLoop_sets_inv (a : Args) (guids : GuidsMap)
    (dh : Option String → String → String) (hh : SetElement → String) :
    ∀ (els : List SetElement) (sets : List MetricSet) (warns : List String),
      extractLoop a guids dh hh els = .ok (sets, warns) →
      ∀ ms ∈ sets,
        dictLookup guids (dh (some (toLowerStr (toUpperStr a.chipset))) (hh ms.set_element)) =
          some ms.guid := by
  intro els
  induction els with
  | nil =>
    intro sets warns h ms hms
    simp only [extractLoop, Except.ok.injEq, Prod.mk.injEq] at h
    rw [← h.1] at hms
    cases hms
  | cons se rest ih =>
    intro sets warns h ms hms
    simp only [extractLoop] at h
    split at h
    · exact Except.noConfusion h
    · exact ih sets warns h ms hms
    · cases hrest : extractLoop a guids dh hh rest with
      | error e => rw [hrest] at h; exact Except.noConfusion h
      | ok p =>
        rw [hrest] at h
        simp only [Except.map, Except.ok.injEq, Prod.mk.injEq] at h
        rw [← h.1] at hms
        exact ih p.1 p.2 (by rw [hrest]) ms hms
    · rename_i ms2 hkeep
      cases hrest : extractLoop a guids dh hh rest with
      | error e => rw [hrest] at h; exact Except.noConfusion h
      | ok p =>
        rw [hrest] at h
        simp only [Except.map, Except.ok.injEq, Prod.mk.injEq] at h
        rw [← h.1] at hms
        rcases List.mem_cons.mp hms with hms1 | hms1
        · obtain ⟨hl, hse, -, -, -, -⟩ := keep_inv a guids dh hh se ms2 hkeep
          rw [hms1, hse]
          exact hl
        · exact ih p.1 p.2 (by rw [hrest]) ms hms1

theorem runDocs_sets_inv (a : Args) (guids : GuidsMap)
    (dh : Option String → String → String) (hh : SetElement → String)
    (P : MetricSet → Prop)
    (hP : ∀ els sets warns, extractLoop a guids dh hh els = .ok (sets, warns) →
      ∀ ms ∈ sets, P ms) :
    ∀ (docs : List (List SetElement)) (sets0 fs : List MetricSet) (ws : List String)
      (evs : List Emission),
      runDocs a guids dh hh docs sets0 = .ok (fs, ws, evs) →
      (∀ ms ∈ sets0, P ms) → ∀ ms ∈ fs, P ms := by
  intro docs
  induction docs with
  | nil =>
    intro sets0 fs ws evs h h0 ms hms
    simp only [runDocs, Except.ok.injEq, Prod.mk.injEq] at h
    rw [← h.1] at hms
    exact h0 ms hms
  | cons doc rest ih =>
    intro sets0 fs ws evs h h0 ms hms
    simp only [runDocs] at h
    split at h
    · exact Except.noConfusion h
    · rename_i p hp
      split at h
      · exact Except.noConfusion h
      · split at h
        · exact Except.noConfusion h
        · rename_i q hq
          simp only [Except.ok.injEq, Prod.mk.injEq] at h
          rw [← h.1] at hms
          refine ih (sets0 ++ p.1) q.1 q.2.1 q.2.2 (by rw [hq]) ?_ ms hms
          intro ms2 hms2
          rcases List.mem_append.mp hms2 with h2 | h2
          · exact h0 ms2 h2
          · exact hP doc p.1 p.2 (by rw [hp]) ms2 h2

/-- C7: every `MetricSet` record in the accumulated `sets` list comes from
a successful registry lookup: its `guid` field is the value the registry
maps its computed hash key to; a candidate whose key misses the registry
is dropped before construction, so no record with an unresolved guid is
ever in the list handed downstream. -/
theorem resolved_sets_guid_invariant (a : Args) (guids : GuidsMap)
    (dh : Option String → String → String) (hh : SetElement → String)
    (docs : List (List SetElement)) (fs : List MetricSet) (ws : List String)
    (evs : List Emission)
    (h : runDocs a guids dh hh docs [] = .ok (fs, ws, evs)) :
    ∀ ms ∈ fs,
      dictLookup guids (dh (some (toLowerStr (toUpperStr a.chipset))) (hh ms.set_element)) =
        some ms.guid := by
  refine runDocs_sets_inv a guids dh hh _ ?_ docs [] fs ws evs h (by intro ms hms; cases hms)
  exact extractLoop_sets_inv a guids dh hh

/-- Witness for C7 at a concrete run: the one resolved record's guid is
exactly the registry's value for its computed key. -/
theorem resolved_sets_guid_invariant_witness :
    dictLookup guidsX (dhX (some (toLowerStr (toUpperStr argsX.chipset))) (hhX msT.set_element)) =
      some msT.guid :=
  resolved_sets_guid_invariant argsX guidsX dhX hhX [[seTest], []] [msT] [] [emT, emT]
    (by decide) msT (by decide)

/-- C8: for every retained set, `perf_name_lc` is the `underscore`
transform of its name (replace `MHz` by `Mhz`, underscore before
camel-case humps with runs of capitals handled, then lowercase) and
`perf_name` is its uppercase form; e.g. `RenderBasic` yields
`render_basic` and `RENDER_BASIC`. -/
theorem perf_name_underscore (a : Args) (guids : GuidsMap)
    (dh : Option String → String → String) (hh : SetElement → String)
    (se : SetElement) (ms : MetricSet)
    (h : processSetElement a guids dh hh se = .keep ms) :
    ms.perf_name_lc = underscore ms.name ∧
    ms.perf_name = toUpperStr (underscore ms.name) ∧
    underscore "RenderBasic" = "render_basic" ∧
    toUpperStr (underscore "RenderBasic") = "RENDER_BASIC" := by
  obtain ⟨-, -, hname, hlc, hup, -⟩ := keep_inv a guids dh hh se ms h
  exact ⟨by rw [hname, hlc], by rw [hname, hup], by decide, by decide⟩

/-- Witness for C8 at a concrete retained set. -/
theorem perf_name_underscore_witness :
    msT.perf_name_lc = underscore msT.name ∧
    msT.perf_name = toUpperStr (underscore msT.name) ∧
    underscore "RenderBasic" = "render_basic" ∧
    toUpperStr (underscore "RenderBasic") = "RENDER_BASIC" :=
  perf_name_underscore argsX guidsX dhX hhX seTest msT (by decide)

/-- C3: with no whitelist supplied, a candidate `set` element of the
target chipset is retained only when its `symbol_name` is literally
`TestOa` (or literally `RenderBasic` when the chipset is `HSW`); any
other candidate is silently filtered out (a bare `continue`: no warning,
no error). -/
theorem default_filter_selects_only_default_name (a : Args) (guids : GuidsMap)
    (dh : Option String → String → String) (hh : SetElement → String) (se : SetElement)
    (hchip : se.chipset = toUpperStr a.chipset) (_hwl : a.whitelist = none) :
    (toUpperStr a.chipset ≠ "HSW" → se.symbol_name ≠ "TestOa" →
      processSetElement a guids dh hh se = .skip) ∧
    (toUpperStr a.chipset = "HSW" → se.symbol_name ≠ "RenderBasic" →
      processSetElement a guids dh hh se = .skip) := by
  constructor
  · intro hc hn
    simp [processSetElement, hchip, hc, hn]
  · intro hc hn
    simp [processSetElement, hchip, hc, hn]

/-- Witness for C3: chipset `XYZ` silently drops a candidate named `Foo`,
and chipset `HSW` silently drops a candidate named `TestOa`. -/
theorem default_filter_selects_only_default_name_witness :
    processSetElement argsX guidsX dhX hhX seFoo = .skip ∧
    processSetElement argsHSW guidsX dhX hhX seHswTest = .skip :=
  ⟨(default_filter_selects_only_default_name argsX guidsX dhX hhX seFoo
      (by decide) rfl).1 (by decide) (by decide),
   (default_filter_selects_only_default_name argsHSW guidsX dhX hhX seHswTest
      (by decide) rfl).2 (by decide) (by decide)⟩

/-- C4: cardinality rules of the per-set config resolution.  If the NOA
bucket holds zero blocks or more than one, the run aborts; if the OA or
the FLEX bucket holds more than one block, the run aborts; with exactly
one NOA block and zero OA and zero FLEX blocks, resolution succeeds and
the synthesized empty placeholder block (zero register entries) stands in
for each absent category. -/
theorem config_cardinality_rules (configs : List ConfigElem) :
    (((bucket configs).mux_configs.length = 0 ∨ 1 < (bucket configs).mux_configs.length) →
      ∃ e, resolveConfigs configs = .error e) ∧
    (1 < (bucket configs).b_counter_configs.length →
      ∃ e, resolveConfigs configs = .error e) ∧
    (1 < (bucket configs).flex_configs.length →
      ∃ e, resolveConfigs configs = .error e) ∧
    (∀ m, (bucket configs).mux_configs = [m] → (bucket configs).b_counter_configs = [] →
      (bucket configs).flex_configs = [] →
      resolveConfigs configs = .ok (emptyRC, emptyRC, m) ∧ emptyRC.registers = []) := by
  refine ⟨?_, ?_, ?_, ?_⟩
  · intro hm
    simp only [resolveConfigs]
    repeat' split
    all_goals first
      | exact ⟨_, rfl⟩
      | (exfalso; omega)
  · intro hb
    simp only [resolveConfigs]
    repeat' split
    all_goals first
      | exact ⟨_, rfl⟩
      | (exfalso; omega)
  · intro hf
    simp only [resolveConfigs]
    repeat' split
    all_goals first
      | exact ⟨_, rfl⟩
      | (exfalso; omega)
  · intro m hm hb hf
    refine ⟨?_, rfl⟩
    simp [resolveConfigs, hm, hb, hf]

/-- Witness for C4: an empty bucket set aborts; two OA blocks abort; two
FLEX blocks abort; a single NOA block succeeds with synthesized empty
OA/FLEX placeholders. -/
theorem config_cardinality_rules_witness :
    (∃ e, resolveConfigs [] = .error e) ∧
    (∃ e, resolveConfigs [cfgNOA, cfgOA, cfgOA] = .error e) ∧
    (∃ e, resolveConfigs [cfgNOA, cfgFLEX, cfgFLEX] = .error e) ∧
    (resolveConfigs [cfgNOA] = .ok (emptyRC, emptyRC, cfgNOA) ∧ emptyRC.registers = []) :=
  ⟨(config_cardinality_rules []).1 (by decide),
   (config_cardinality_rules [cfgNOA, cfgOA, cfgOA]).2.1 (by decide),
   (config_cardinality_rules [cfgNOA, cfgFLEX, cfgFLEX]).2.2.1 (by decide),
   (config_cardinality_rules [cfgNOA]).2.2.2 cfgNOA (by decide) (by decide) (by decide)⟩

/-- C5: both recoverable conditions are non-fatal skips.  A candidate of
the target chipset that passes the name filters but has zero
`register_config` children yields the missing-configuration warning; one
whose computed hash key is absent from the registry yields the no-GUID
warning naming the chipset, the set and the key; and any warning step
drops only that candidate — the extraction continues over the rest with
the same results plus that warning, never aborting. -/
theorem recoverable_skips_warn_and_continue :
    (∀ (a : Args) (guids : GuidsMap) (dh : Option String → String → String)
       (hh : SetElement → String) (se : SetElement),
       se.chipset = toUpperStr a.chipset →
       (if toUpperStr a.chipset = "HSW" then se.symbol_name = "RenderBasic"
        else se.symbol_name = "TestOa") →
       (strTruthy a.whitelist = true → se.symbol_name ∈ pysplit (a.whitelist.getD "")) →
       se.symbol_name ∉ (if strTruthy a.blacklist then pysplit (a.blacklist.getD "") else []) →
       se.register_configs = [] →
       processSetElement a guids dh hh se =
         .skipWarn ("WARNING: Missing register configuration for set \"" ++ se.name
           ++ "\" (SKIPPING)")) ∧
    (∀ (a : Args) (guids : GuidsMap) (dh : Option String → String → String)
       (hh : SetElement → String) (se : SetElement),
       se.chipset = toUpperStr a.chipset →
       (if toUpperStr a.chipset = "HSW" then se.symbol_name = "RenderBasic"
        else se.symbol_name = "TestOa") →
       (strTruthy a.whitelist = true → se.symbol_name ∈ pysplit (a.whitelist.getD "")) →
       se.symbol_name ∉ (if strTruthy a.blacklist then pysplit (a.blacklist.getD "") else []) →
       se.register_configs ≠ [] →
       dictLookup guids (dh (some (toLowerStr (toUpperStr a.chipset))) (hh se)) = none →
       processSetElement a guids dh hh se =
         .skipWarn ("WARNING: No GUID found for metric set " ++ toUpperStr a.chipset
           ++ ", " ++ se.name ++ " (expected key = "
           ++ dh (some (toLowerStr (toUpperStr a.chipset))) (hh se) ++ ") (SKIPPING)")) ∧
    (∀ (a : Args) (guids : GuidsMap) (dh : Option String → String → String)
       (hh : SetElement → String) (se : SetElement) (rest : List SetElement) (w : String),
       processSetElement a guids dh hh se = .skipWarn w →
       extractLoop a guids dh hh (se :: rest) =
         (extractLoop a guids dh hh rest).map (fun p => (p.1, w :: p.2))) := by
  refine ⟨?_, ?_, ?_⟩
  · intro a guids dh hh se hchip hdef hwl hbl hcfg
    have hwl2 : ¬(strTruthy a.whitelist = true ∧ se.symbol_name ∉ pysplit (a.whitelist.getD "")) :=
      fun hcon => hcon.2 (hwl hcon.1)
    have hbl2 : ¬(strTruthy a.blacklist = true ∧ se.symbol_name ∈ pysplit (a.blacklist.getD "")) := by
      intro hcon
      rw [if_pos hcon.1] at hbl
      exact hbl hcon.2
    by_cases hc : toUpperStr a.chipset = "HSW"
    · rw [if_pos hc] at hdef
      rw [hdef] at hwl2 hbl2
      simp [processSetElement, hchip, hc, hdef, hwl2, hbl2, hcfg]
    · rw [if_neg hc] at hdef
      rw [hdef] at hwl2 hbl2
      simp [processSetElement, hchip, hc, hdef, hwl2, hbl2, hcfg]
  · intro a guids dh hh se hchip hdef hwl hbl hcfg hmiss
    have hwl2 : ¬(strTruthy a.whitelist = true ∧ se.symbol_name ∉ pysplit (a.whitelist.getD "")) :=
      fun hcon => hcon.2 (hwl hcon.1)
    have hbl2 : ¬(strTruthy a.blacklist = true ∧ se.symbol_name ∈ pysplit (a.blacklist.getD "")) := by
      intro hcon
      rw [if_pos hcon.1] at hbl
      exact hbl hcon.2
    by_cases hc : toUpperStr a.chipset = "HSW"
    · rw [if_pos hc] at hdef
      rw [hdef] at hwl2 hbl2
      rw [hc] at hmiss
      simp [processSetElement, hchip, hc, hdef, hwl2, hbl2, hcfg, hmiss]
    · rw [if_neg hc] at hdef
      rw [hdef] at hwl2 hbl2
      simp [processSetElement, hchip, hc, hdef, hwl2, hbl2, hcfg, hmiss]
  · intro a guids dh hh se rest w hw
    simp only [extractLoop, hw]

/-- Witness for C5: a candidate with no register configs is skipped with
the missing-configuration warning; the same candidate against an empty
registry is skipped with the no-GUID warning; both as one-element
documents continue to the (empty) remainder with exactly that warning. -/
theorem recoverable_skips_warn_and_continue_witness :
    processSetElement argsX guidsX dhX hhX seEmpty =
      .skipWarn "WARNING: Missing register configuration for set \"TestOa\" (SKIPPING)" ∧
    processSetElement argsX [] dhX hhX seTest =
      .skipWarn "WARNING: No GUID found for metric set XYZ, TestOa (expected key = xyz:TestOa) (SKIPPING)" ∧
    extractLoop argsX [] dhX hhX [seTest] =
      (extractLoop argsX [] dhX hhX []).map
        (fun p => (p.1,
          "WARNING: No GUID found for metric set XYZ, TestOa (expected key = xyz:TestOa) (SKIPPING)" :: p.2)) := by
  have h1 := recoverable_skips_warn_and_continue.1 argsX guidsX dhX hhX seEmpty
    (by decide) (by decide) (by decide) (by decide) rfl
  have h2 := recoverable_skips_warn_and_continue.2.1 argsX [] dhX hhX seTest
    (by decide) (by decide) (by decide) (by decide) (by decide) (by decide)
  refine ⟨?_, ?_, ?_⟩
  · exact h1
  · exact h2
  · exact recoverable_skips_warn_and_continue.2.2 argsX [] dhX hhX seTest [] _ h2

/-- C1 (refuted on the code): a whitelist does NOT replace the default
single-name filter.  A candidate of the target chipset whose name is in
the supplied whitelist, with a valid NOA config and a matching registry
entry, is nevertheless silently dropped because the hard-coded
TestOa/RenderBasic default filter runs first and the whitelist only
intersects with it — contradicting the option's own help text
("Override default metric set whitelist"). -/
theorem whitelist_does_not_replace_default_filter :
    "RenderBasic" ∈ pysplit "RenderBasic TestOa" ∧
    seRB.symbol_name = "RenderBasic" ∧
    dictLookup guidsX (dhX (some "xyz") (hhX seRB)) = some (some "guid-2") ∧
    processSetElement
      { chipset := "xyz", whitelist := some "RenderBasic TestOa",
        no_whitelist := false, blacklist := none } guidsX dhX hhX seRB =
      SelectStep.skip := by
  decide

/-- C2 (refuted on the code): `--no-whitelist` does not bypass the default
filter.  With `no_whitelist` set, a candidate of the target chipset named
`Foo` (valid config, registry entry present) is still silently dropped by
the hard-coded TestOa filter, while only the default-named candidate is
kept — the flag is parsed but never read, contradicting its help text
("Bypass default metric set whitelist"). -/
theorem no_whitelist_flag_is_ignored :
    processSetElement
      { chipset := "xyz", whitelist := none, no_whitelist := true, blacklist := none }
      guidsX dhX hhX seFoo = SelectStep.skip ∧
    processSetElement
      { chipset := "xyz", whitelist := none, no_whitelist := true, blacklist := none }
      guidsX dhX hhX seTest = SelectStep.keep msT := by
  decide

theorem bucket_foldl_general :
    ∀ (configs : List ConfigElem) (acc : Buckets),
      configs.foldl bucketStep acc =
        { mux_configs := acc.mux_configs
            ++ configs.filter (fun cfg => decide (cfg.ctype = some "NOA")),
          b_counter_configs := acc.b_counter_configs
            ++ configs.filter (fun cfg => decide (cfg.ctype = some "OA")),
          flex_configs := acc.flex_configs
            ++ configs.filter (fun cfg => decide (cfg.ctype = some "FLEX")) } := by
  intro configs
  induction configs with
  | nil => intro acc; cases acc; simp
  | cons cfg rest ih =>
    intro acc
    rw [List.foldl_cons, ih]
    by_cases h1 : cfg.ctype = some "NOA"
    · simp +decide [bucketStep, h1, List.filter_cons]
    · by_cases h2 : cfg.ctype = some "OA"
      · simp +decide [bucketStep, h1, h2, List.filter_cons]
      · by_cases h3 : cfg.ctype = some "FLEX"
        · simp +decide [bucketStep, h1, h2, h3, List.filter_cons]
        · simp +decide [bucketStep, h1, h2, h3, List.filter_cons]

/-- C9: the bucketing loop partitions the `register_config` elements
exhaustively over the three declared `type` values and nothing else: each
bucket is exactly the sublist of elements whose `type` attribute names it,
so an element with any other (or absent) `type` lands in no bucket at all
— silently dropped, contributing to no cardinality check. -/
theorem bucket_partition (configs : List ConfigElem) :
    bucket configs =
      { mux_configs := configs.filter (fun cfg => decide (cfg.ctype = some "NOA")),
        b_counter_configs := configs.filter (fun cfg => decide (cfg.ctype = some "OA")),
        flex_configs := configs.filter (fun cfg => decide (cfg.ctype = some "FLEX")) } := by
  unfold bucket
  rw [bucket_foldl_general]
  simp

theorem countMS_append (ms : MetricSet) (l1 l2 : List MetricSet) :
    countMS ms (l1 ++ l2) = countMS ms l1 + countMS ms l2 := by
  simp [countMS, List.countP_append]

theorem countEm_append (ms : MetricSet) (l1 l2 : List Emission) :
    countEm ms (l1 ++ l2) = countEm ms l1 + countEm ms l2 := by
  simp [countEm, List.countP_append]

theorem countEm_cons (ms : MetricSet) (e : Emission) (l : List Emission) :
    countEm ms (e :: l) = countEm ms l + (if e.ms = ms then 1 else 0) := by
  simp [countEm, List.countP_cons]

theorem countMS_cons (ms m2 : MetricSet) (l : List MetricSet) :
    countMS ms (m2 :: l) = countMS ms l + (if m2 = ms then 1 else 0) := by
  simp [countMS, List.countP_cons]

theorem emitAll_count (ms : MetricSet) :
    ∀ (sets : List MetricSet) (evs : List Emission),
      emitAll sets = .ok evs → countEm ms evs = countMS ms sets := by
  intro sets
  induction sets with
  | nil =>
    intro evs h
    simp only [emitAll, Except.ok.injEq] at h
    rw [← h]
    rfl
  | cons ms2 rest ih =>
    intro evs h
    simp only [emitAll] at h
    cases hr : resolveConfigs ms2.configs with
    | error e => rw [hr] at h; exact Except.noConfusion h
    | ok t =>
      rw [hr] at h
      cases he : emitAll rest with
      | error e => rw [he] at h; exact Except.noConfusion h
      | ok evs2 =>
        rw [he] at h
        simp only [Except.ok.injEq] at h
        rw [← h, countEm_cons, countMS_cons, ih evs2 he]

theorem runDocs_count_absent (a : Args) (guids : GuidsMap)
    (dh : Option String → String → String) (hh : SetElement → String) (ms : MetricSet) :
    ∀ (docs : List (List SetElement)) (sets0 fs : List MetricSet) (ws : List String)
      (evs : List Emission),
      runDocs a guids dh hh docs sets0 = .ok (fs, ws, evs) →
      (∀ doc ∈ docs, countMS ms (extractedSets a guids dh hh doc) = 0) →
      countEm ms evs = docs.length * countMS ms sets0 := by
  intro docs
  induction docs with
  | nil =>
    intro sets0 fs ws evs h _
    simp only [runDocs, Except.ok.injEq, Prod.mk.injEq] at h
    rw [← h.2.2]
    simp [countEm]
  | cons doc rest ih =>
    intro sets0 fs ws evs h habs
    simp only [runDocs] at h
    split at h
    · exact Except.noConfusion h
    rename_i p hp
    split at h
    · exact Except.noConfusion h
    rename_i ev1 hev
    split at h
    · exact Except.noConfusion h
    rename_i q hq
    · simp only [Except.ok.injEq, Prod.mk.injEq] at h
      rw [← h.2.2, countEm_append]
      have hdoc : countMS ms p.1 = 0 := by
        have h2 := habs doc (List.mem_cons_self _ _)
        unfold extractedSets at h2
        rw [hp] at h2
        exact h2
      have hsets2 : countMS ms (sets0 ++ p.1) = countMS ms sets0 := by
        rw [countMS_append, hdoc]
        omega
      rw [emitAll_count ms (sets0 ++ p.1) ev1 hev, hsets2]
      rw [ih (sets0 ++ p.1) q.1 q.2.1 q.2.2 (by rw [hq])
        (fun d hd => habs d (List.mem_cons_of_mem _ hd)), hsets2]
      simp only [List.length_cons]
      ring

theorem runDocs_count_once (a : Args) (guids : GuidsMap)
    (dh : Option String → String → String) (hh : SetElement → String) (ms : MetricSet) :
    ∀ (docs : List (List SetElement)) (i : Nat) (hi : i < docs.length)
      (sets0 fs : List MetricSet) (ws : List String) (evs : List Emission),
      runDocs a guids dh hh docs sets0 = .ok (fs, ws, evs) →
      countMS ms sets0 = 0 →
      countMS ms (extractedSets a guids dh hh (docs.get ⟨i, hi⟩)) = 1 →
      (∀ (j : Nat) (hj : j < docs.length), j ≠ i →
        countMS ms (extractedSets a guids dh hh (docs.get ⟨j, hj⟩)) = 0) →
      countEm ms evs = docs.length - i := by
  intro docs
  induction docs with
  | nil => intro i hi; exact absurd hi (Nat.not_lt_zero i)
  | cons doc rest ih =>
    intro i hi sets0 fs ws evs h h0 h1 h2
    simp only [runDocs] at h
    split at h
    · exact Except.noConfusion h
    rename_i p hp
    split at h
    · exact Except.noConfusion h
    rename_i ev1 hev
    split at h
    · exact Except.noConfusion h
    rename_i q hq
    · simp only [Except.ok.injEq, Prod.mk.injEq] at h
      rw [← h.2.2, countEm_append]
      have hextr : extractedSets a guids dh hh doc = p.1 := by
        unfold extractedSets
        rw [hp]
      cases i with
      | zero =>
        have hdoc1 : countMS ms p.1 = 1 := by
          rw [← hextr]
          exact h1
        have hsets2 : countMS ms (sets0 ++ p.1) = 1 := by
          rw [countMS_append, h0, hdoc1]
        have habs : ∀ d ∈ rest, countMS ms (extractedSets a guids dh hh d) = 0 := by
          intro d hd
          obtain ⟨n, hn⟩ := List.get_of_mem hd
          have h3 := h2 (n.val + 1)
            (by simp only [List.length_cons]; exact Nat.succ_lt_succ n.isLt)
            (Nat.succ_ne_zero _)
          rw [← hn]
          exact h3
        rw [emitAll_count ms (sets0 ++ p.1) ev1 hev, hsets2]
        rw [runDocs_count_absent a guids dh hh ms rest (sets0 ++ p.1) q.1 q.2.1 q.2.2
          (by rw [hq]) habs, hsets2]
        simp only [List.length_cons, Nat.mul_one, Nat.sub_zero]
        omega
      | succ k =>
        have hdoc0 : countMS ms p.1 = 0 := by
          rw [← hextr]
          exact h2 0 (by simp) (Nat.succ_ne_zero k).symm
        have hsets2 : countMS ms (sets0 ++ p.1) = 0 := by
          rw [countMS_append, h0, hdoc0]
        have hk : k < rest.length := by
          simp only [List.length_cons] at hi
          omega
        rw [emitAll_count ms (sets0 ++ p.1) ev1 hev, hsets2]
        rw [ih k hk (sets0 ++ p.1) q.1 q.2.1 q.2.2 (by rw [hq]) hsets2 h1
          (fun j hj hjk => h2 (j + 1) (by simpa using Nat.succ_lt_succ hj) (by omega))]
        simp only [List.length_cons]
        omega

/-- C10: the per-set config-resolution/emission loop runs inside the loop
over input documents, over the whole accumulated `sets` list each time.
Hence on a run over `docs` (starting from the empty `sets` list) that
completes without a fatal assert, a metric set extracted exactly once,
during the document at zero-based index `i`, and by no other document, is
resolved and emitted `docs.length - i` times — that is, `N - i + 1` times
for the `i`-th document of `N` in one-based numbering, and exactly once
for every set only when a single document is supplied. -/
theorem nested_emission_count (a : Args) (guids : GuidsMap)
    (dh : Option String → String → String) (hh : SetElement → String)
    (docs : List (List SetElement)) (fs : List MetricSet) (ws : List String)
    (evs : List Emission) (ms : MetricSet) (i : Nat) (hi : i < docs.length)
    (h : runDocs a guids dh hh docs [] = .ok (fs, ws, evs))
    (h1 : countMS ms (extractedSets a guids dh hh (docs.get ⟨i, hi⟩)) = 1)
    (h2 : ∀ (j : Nat) (hj : j < docs.length), j ≠ i →
      countMS ms (extractedSets a guids dh hh (docs.get ⟨j, hj⟩)) = 0) :
    countEm ms evs = docs.length - i :=
  runDocs_count_once a guids dh hh ms docs i hi [] fs ws evs h rfl h1 h2

/-- Witness for C10: two input documents, the first contributing the one
`TestOa` set and the second empty — the set is emitted twice. -/
theorem nested_emission_count_witness : countEm msT [emT, emT] = 2 :=
  nested_emission_count argsX guidsX dhX hhX [[seTest], []] [msT] [] [emT, emT] msT 0
    (by decide) (by decide) (by decide)
    (by
      intro j hj hne
      match j, hj with
      | 0, _ => exact absurd rfl hne
      | 1, _ => exact (by decide : countMS msT (extractedSets argsX guidsX dhX hhX []) = 0)
      | (n + 2), hj => exact absurd hj (by simp))
